import Mathlib

/-!
# Verification of the venue-interaction store (`stores/venueInteractionStore.ts`)

Shallow embedding of the Zustand store in `src/route.ts` (lines 71-638).

Modelling conventions:
* Local time is measured in whole minutes (`Int`) from an arbitrary local
  midnight; a day is 1440 minutes (no DST shifts).  `setHours(h, m, 0, 0)`
  on "today" becomes `now - now % 1440 + 60*h + m`.
* A stored timestamp string is a `TS`: `TS.empty` is the empty string
  (falsy in JS), `TS.invalid` is a non-empty string that `new Date(...)`
  parses to an Invalid Date (the `Date` constructor never throws; every
  numeric comparison against an Invalid Date, i.e. against `NaN`, is
  false), and `TS.valid t` parses to the instant `t`.
* The `interactions` array holds real records only, so the defensive
  `.filter(Boolean)` passes and `i && p(i)` guards of the source are the
  identity / plain `p(i)` here.
* Store methods that mutate via `set` are functions `State → State`
  (with `now : Int` passed explicitly); methods that both mutate (through
  the embedded `resetInteractionsIfNeeded` call) and answer a query
  return a pair of the answer and the updated state.
-/

namespace VenueStore

/-- A stored timestamp string, as seen by `new Date(s)`. -/
inductive TS where
  | empty
  | invalid
  | valid (t : Int)
deriving Repr, DecidableEq

/-- `new Date(s).getTime()`: `some t` for a parseable string, `none`
(`NaN` / Invalid Date) for the empty string and for malformed input. -/
def parseTS : TS → Option Int
  | TS.valid t => some t
  | _ => none

/-- JS `a || b` on timestamp strings: the empty string is falsy, any
non-empty string (even a malformed one) is truthy. -/
def tsOr (a b : TS) : TS :=
  match a with
  | TS.empty => b
  | x => x

/-- JS `a || b` where `a` is an optional string: `undefined` and `''` are
falsy. -/
def strOr (a b : Option String) : Option String :=
  match a with
  | none => b
  | some s => if s = "" then b else some s

/-- A non-`undefined`, non-empty optional string (JS truthiness). -/
def truthyStr : Option String → Bool
  | none => false
  | some s => s ≠ ""

def RESET_HOUR : Int := 5
def LIKE_RESET_HOUR : Int := 4
def LIKE_RESET_MINUTE : Int := 59
def INTERACTION_COOLDOWN_HOURS : Int := 2
def DAILY_LIKE_LIMIT : Nat := 1

/-- Today's visit-reset boundary: `resetTime.setHours(RESET_HOUR, 0, 0, 0)`
applied to a copy of `now`. -/
def visitBoundary (now : Int) : Int := now - now % 1440 + 60 * RESET_HOUR

/-- Today's like-reset boundary:
`resetTime.setHours(LIKE_RESET_HOUR, LIKE_RESET_MINUTE, 0, 0)`. -/
def likeBoundary (now : Int) : Int :=
  now - now % 1440 + 60 * LIKE_RESET_HOUR + LIKE_RESET_MINUTE

/-- `shouldReset` (route.ts 117-129).  For a malformed `lastReset` the
`Date` comparison is a `NaN` comparison and yields `false`. -/
def shouldReset (lastReset : TS) (now : Int) : Bool :=
  match parseTS lastReset with
  | none => false
  | some lr => decide (now ≥ visitBoundary now) && decide (lr < visitBoundary now)

/-- `shouldResetLikes` (route.ts 131-156).  `yesterdayResetTime` is the
boundary minus one day. -/
def shouldResetLikes (lastLikeReset : TS) (now : Int) : Bool :=
  match parseTS lastLikeReset with
  | none => false
  | some lr =>
    if now ≥ likeBoundary now ∧ lr < likeBoundary now then true
    else if now < likeBoundary now then decide (lr < likeBoundary now - 1440)
    else false

/-- `canInteractWithVenue` (route.ts 158-172).  `none` is a missing record
(`undefined`), `TS.empty` the stored `''`: both are falsy and give `true`.
A malformed non-empty string parses to an Invalid Date, `setHours` keeps
it invalid, and `now >= NaN` is `false` (the `catch` never fires, since
none of these operations throws). -/
def canInteractWithVenue (lastInteraction : Option TS) (now : Int) : Bool :=
  match lastInteraction with
  | none => true
  | some TS.empty => true
  | some TS.invalid => false
  | some (TS.valid t) => decide (now ≥ t + 60 * INTERACTION_COOLDOWN_HOURS)

/-- One element of the `interactions` array (route.ts 75-86). -/
structure VenueInteraction where
  venueId : String
  count : Nat
  lastReset : TS
  lastInteraction : TS
  arrivalTime : Option String
  likes : Nat
  timestamp : TS
  lastLikeReset : TS
  dailyLikesUsed : Nat
  likeTimeSlot : Option String
deriving Repr, DecidableEq

/-- The store state: the `interactions` array. -/
abbrev State := List VenueInteraction

/-- `state.interactions.find(i => i && i.venueId === venueId)`. -/
def findVenue (s : State) (venueId : String) : Option VenueInteraction :=
  List.find? (fun i => i.venueId == venueId) s

/-- The per-record body of the `map` in `resetInteractionsIfNeeded`
(route.ts 488-503). -/
def resetRecord (now : Int) (i : VenueInteraction) : VenueInteraction :=
  let sr := shouldReset i.lastReset now
  let srl := shouldResetLikes (tsOr i.lastLikeReset i.lastReset) now
  { i with
    count := if sr then 0 else i.count
    lastReset := if sr then TS.valid now else i.lastReset
    arrivalTime := if sr then none else i.arrivalTime
    lastLikeReset := if srl then TS.valid now else tsOr i.lastLikeReset i.lastReset
    dailyLikesUsed := if srl then 0 else i.dailyLikesUsed
    likeTimeSlot := if srl then none else i.likeTimeSlot }

/-- `resetInteractionsIfNeeded` (route.ts 471-513). -/
def resetInteractionsIfNeeded (now : Int) (s : State) : State :=
  if (List.any s fun i => shouldReset i.lastReset now)
      || (List.any s fun i => shouldResetLikes (tsOr i.lastLikeReset i.lastReset) now)
  then List.map (resetRecord now) s
  else s

/-- `canInteract` (route.ts 515-524): answer plus the state left behind by
the embedded `resetInteractionsIfNeeded` call.  An empty `venueId` returns
`false` before any reset runs. -/
def canInteract (now : Int) (venueId : String) (s : State) : Bool × State :=
  if venueId = "" then (false, s)
  else
    let s1 := resetInteractionsIfNeeded now s
    (canInteractWithVenue (Option.map (fun i => i.lastInteraction) (findVenue s1 venueId)) now, s1)

/-- `canLikeVenue` (route.ts 526-544).  Note the `lastLikeReset ||
lastReset` fallback on line 537. -/
def canLikeVenue (now : Int) (venueId : String) (s : State) : Bool × State :=
  if venueId = "" then (false, s)
  else
    let s1 := resetInteractionsIfNeeded now s
    match findVenue s1 venueId with
    | none => (true, s1)
    | some r =>
      let srl := shouldResetLikes (tsOr r.lastLikeReset r.lastReset) now
      (decide ((if srl then 0 else r.dailyLikesUsed) < DAILY_LIKE_LIMIT), s1)

/-- `incrementInteraction` (route.ts 188-248).  Line 192 runs a reset
pass, line 194 runs another one inside `canInteract` (both are committed
to the store even when the call is then rejected); the `set` on 199-235
updates the first-found record's venue or appends a fresh record. -/
def incrementInteraction (now : Int) (venueId : String) (arrivalTime : Option String)
    (s : State) : State :=
  if venueId = "" then s
  else
    let s0 := resetInteractionsIfNeeded now s
    let c := canInteract now venueId s0
    if ¬ c.1 then c.2
    else
      match findVenue c.2 venueId with
      | some _ =>
        List.map (fun i =>
          if i.venueId == venueId then
            { i with
              count := i.count + 1
              lastInteraction := TS.valid now
              arrivalTime := strOr arrivalTime i.arrivalTime
              timestamp := TS.valid now }
          else i) c.2
      | none =>
        c.2 ++ [{ venueId := venueId, count := 1, likes := 0,
                  lastReset := TS.valid now, lastInteraction := TS.valid now,
                  arrivalTime := arrivalTime, timestamp := TS.valid now,
                  lastLikeReset := TS.valid now, dailyLikesUsed := 0,
                  likeTimeSlot := none }]

/-- `incrementInteraction` is declared `=> void`: every path returns
`undefined`.  Modelled as a constantly-`none` returned value. -/
def incrementInteractionRet (_now : Int) (_venueId : String)
    (_arrivalTime : Option String) (_s : State) : Option Bool := none

/-- `likeVenue` (route.ts 251-315).  The guard `!venueId || !timeSlot`
returns before any reset; `canLikeVenue` commits a reset pass; the `set`
on 260-300 recomputes `shouldResetLikes` on `existingInteraction.lastLikeReset`
alone (line 265, no `|| lastReset` fallback) and applies the one
`dailyLikesUsed` value to every record of that venue. -/
def likeVenue (now : Int) (venueId timeSlot : String) (s : State) : State :=
  if venueId = "" ∨ timeSlot = "" then s
  else
    let c := canLikeVenue now venueId s
    if ¬ c.1 then c.2
    else
      match findVenue c.2 venueId with
      | some ex =>
        let srl := shouldResetLikes ex.lastLikeReset now
        let dlu := if srl then 0 else ex.dailyLikesUsed
        List.map (fun i =>
          if i.venueId == venueId then
            { i with
              likes := i.likes + 1
              timestamp := TS.valid now
              lastLikeReset := if srl then TS.valid now else i.lastLikeReset
              dailyLikesUsed := dlu + 1
              likeTimeSlot := some timeSlot }
          else i) c.2
      | none =>
        c.2 ++ [{ venueId := venueId, count := 0, likes := 1,
                  lastReset := TS.valid now, lastInteraction := TS.empty,
                  arrivalTime := none, timestamp := TS.valid now,
                  lastLikeReset := TS.valid now, dailyLikesUsed := 1,
                  likeTimeSlot := some timeSlot }]

/-- `likeVenue` is declared `=> void`: every path returns `undefined`.
Modelled as a constantly-`none` returned value. -/
def likeVenueRet (_now : Int) (_venueId _timeSlot : String) (_s : State) :
    Option Bool := none

/-- `getLikeCount` (route.ts 328-336); no reset pass. -/
def getLikeCount (venueId : String) (s : State) : Nat :=
  if venueId = "" then 0
  else
    match findVenue s venueId with
    | some r => r.likes
    | none => 0

/-- `getTotalLikes` (route.ts 338-347). -/
def getTotalLikes (s : State) : Nat :=
  List.foldl (fun total i => total + i.likes) 0 s

/-- One entry of the `getMostPopularVenues` result. -/
structure VenueLikes where
  venueId : String
  likes : Nat
deriving Repr, DecidableEq

/-- Insert into a list already sorted by `likes` descending, after any
earlier element with at least as many likes (the placement a stable sort
gives a later-arriving element). -/
def insertByLikesDesc (x : VenueLikes) : List VenueLikes → List VenueLikes
  | [] => [x]
  | y :: ys => if y.likes < x.likes then x :: y :: ys else y :: insertByLikesDesc x ys

/-- JS `Array.prototype.sort((a, b) => b.likes - a.likes)`: a stable sort
by like count descending (elements with equal likes keep array order). -/
def sortByLikesDesc (l : List VenueLikes) : List VenueLikes :=
  List.foldl (fun acc x => insertByLikesDesc x acc) [] l

/-- `getMostPopularVenues` (route.ts 360-371). -/
def getMostPopularVenues (s : State) : List VenueLikes :=
  List.take 10 (sortByLikesDesc
    (List.map (fun i => { venueId := i.venueId, likes := i.likes })
      (List.filter (fun i => i.venueId ≠ "") s)))

/-- Append a key to a JS object's key sequence: string keys enumerate in
first-insertion order, and re-assigning an existing key keeps its slot. -/
def insertKey (ks : List String) (k : String) : List String :=
  if k ∈ ks then ks else ks ++ [k]

/-- The key sequence of the `timeCounts` object built by the `forEach` at
route.ts 557-561 (keys in first-occurrence order). -/
def arrivalKeys (l : List VenueInteraction) : List String :=
  List.foldl
    (fun ks i =>
      if truthyStr i.arrivalTime then insertKey ks (Option.getD i.arrivalTime "") else ks)
    [] l

/-- The value `timeCounts[t]` accumulates: the sum of `count || 0` over
the interactions tagged with arrival time `t`. -/
def timeCount (l : List VenueInteraction) (t : String) : Nat :=
  List.foldl (fun acc i => acc + i.count) 0
    (List.filter (fun i => i.arrivalTime == some t) l)

/-- Lexicographic comparison of character sequences by code point: the
order JS's default string `sort()` uses (UTF-16 code-unit order, which
agrees with code-point order on the basic plane). -/
def charsLt : List Char → List Char → Bool
  | [], [] => false
  | [], _ :: _ => true
  | _ :: _, [] => false
  | a :: as, b :: bs =>
    if a.toNat < b.toNat then true
    else if b.toNat < a.toNat then false
    else charsLt as bs

/-- JS `a < b` on strings. -/
def jsStrLt (a b : String) : Bool := charsLt a.toList b.toList

/-- Insert into an ascending list of strings, as JS default `sort()`
(lexicographic by code unit) places it. -/
def insertAsc (x : String) : List String → List String
  | [] => [x]
  | y :: ys => if jsStrLt x y then x :: y :: ys else y :: insertAsc x ys

/-- JS default `Array.prototype.sort()` on strings. -/
def sortStringsAsc (l : List String) : List String :=
  List.foldl (fun acc x => insertAsc x acc) [] l

/-- The `allInteractions` array of `getPopularArrivalTime` (route.ts
550-552): the records of `venueId` that pass the defensive guard and have
a truthy `arrivalTime` and a positive count. -/
def qualifyingInteractions (venueId : String) (s : State) : List VenueInteraction :=
  List.filter (fun i => i.venueId == venueId && truthyStr i.arrivalTime && decide (0 < i.count)) s

/-- `getPopularArrivalTime` (route.ts 546-576): aggregate visit counts
per arrival slot (`timeCounts`, whose keys enumerate in first-occurrence
order), take `Math.max` of the values, keep the keys at the maximum, sort
them and join with `/`. -/
def getPopularArrivalTime (venueId : String) (s : State) : Option String :=
  if venueId = "" then none
  else if (qualifyingInteractions venueId s).length = 0 then none
  else if (arrivalKeys (qualifyingInteractions venueId s)).length = 0 then none
  else
    some (String.intercalate "/"
      (sortStringsAsc (List.filter
        (fun t => timeCount (qualifyingInteractions venueId s) t ==
          List.foldl Nat.max 0 (List.map (timeCount (qualifyingInteractions venueId s))
            (arrivalKeys (qualifyingInteractions venueId s))))
        (arrivalKeys (qualifyingInteractions venueId s)))))

/-- Modelled from the spec: the resolver's output "returns all tied
slots joined in a stable, lexicographically sorted order, not an
arbitrary single winner" — `out` is the `/`-join of a lexicographically
non-decreasing list holding exactly those recorded arrival slots whose
aggregated visit count is maximal among the entity's recorded slots. -/
def joinsAllTiedSlots (q : List VenueInteraction) (out : String) : Prop :=
  ∃ ts : List String,
    out = String.intercalate "/" ts ∧
    List.Chain' (fun a b => jsStrLt b a = false) ts ∧
    (∀ t : String, t ∈ ts ↔
      t ∈ arrivalKeys q ∧ ∀ u ∈ arrivalKeys q, timeCount q u ≤ timeCount q t)

/-- A sequence of `likeVenue` calls, each a `(now, venueId, timeSlot)`
triple, applied in order. -/
def runLikes (calls : List (Int × String × String)) (s : State) : State :=
  List.foldl (fun st c => likeVenue c.1 c.2.1 c.2.2 st) s calls

/-- Modelled from the spec: `likeWindowElapsed(lastReset, now)` is "true
iff `now` is at or after today's like-reset boundary and `lastReset`
predates that boundary; if `now` is before today's boundary, compare
against yesterday's boundary instead". -/
def likeWindowElapsedSpec (lastReset now : Int) : Bool :=
  decide ((now ≥ likeBoundary now ∧ lastReset < likeBoundary now) ∨
    (now < likeBoundary now ∧ lastReset < likeBoundary now - 1440))

/-- Fixture: a record created by a visit accepted at `T = 600`
(10:00 local) with no arrival slot. -/
def exampleVisitRecord : VenueInteraction :=
  { venueId := "bar1", count := 1, lastReset := TS.valid 600,
    lastInteraction := TS.valid 600, arrivalTime := none, likes := 0,
    timestamp := TS.valid 600, lastLikeReset := TS.valid 600,
    dailyLikesUsed := 0, likeTimeSlot := none }

/-- Fixture: entity `bar1` with 3 visits tagged `22:00` stored before
3 visits tagged `21:00` (first-occurrence key order is `22:00, 21:00`). -/
def exampleTieState : State :=
  [{ venueId := "bar1", count := 3, lastReset := TS.valid 0,
     lastInteraction := TS.valid 0, arrivalTime := some "22:00", likes := 0,
     timestamp := TS.valid 0, lastLikeReset := TS.valid 0,
     dailyLikesUsed := 0, likeTimeSlot := none },
   { venueId := "bar1", count := 3, lastReset := TS.valid 0,
     lastInteraction := TS.valid 0, arrivalTime := some "21:00", likes := 0,
     timestamp := TS.valid 0, lastLikeReset := TS.valid 0,
     dailyLikesUsed := 0, likeTimeSlot := none }]

/-- Fixture: two entities with equal cumulative likes, the
lexicographically larger identifier stored first. -/
def examplePopularState : State :=
  [{ venueId := "b", count := 0, lastReset := TS.valid 0,
     lastInteraction := TS.empty, arrivalTime := none, likes := 5,
     timestamp := TS.valid 0, lastLikeReset := TS.valid 0,
     dailyLikesUsed := 0, likeTimeSlot := none },
   { venueId := "a", count := 0, lastReset := TS.valid 0,
     lastInteraction := TS.empty, arrivalTime := none, likes := 5,
     timestamp := TS.valid 0, lastLikeReset := TS.valid 0,
     dailyLikesUsed := 0, likeTimeSlot := none }]

/-! ## Basic lemmas about the time-window predicates -/

theorem shouldReset_empty (now : Int) : shouldReset TS.empty now = false := rfl

theorem shouldReset_invalid (now : Int) : shouldReset TS.invalid now = false := rfl

theorem shouldResetLikes_empty (now : Int) : shouldResetLikes TS.empty now = false := rfl

theorem shouldResetLikes_invalid (now : Int) : shouldResetLikes TS.invalid now = false := rfl

theorem shouldReset_valid_self (now : Int) : shouldReset (TS.valid now) now = false := by
  simp only [shouldReset, parseTS, Bool.and_eq_false_iff, decide_eq_false_iff_not, not_le, not_lt]
  omega

theorem shouldResetLikes_valid_self (now : Int) :
    shouldResetLikes (TS.valid now) now = false := by
  simp only [shouldResetLikes, parseTS, likeBoundary, LIKE_RESET_HOUR, LIKE_RESET_MINUTE]
  split
  · next h => omega
  · split
    · next h => simp only [decide_eq_false_iff_not, not_lt]; omega
    · rfl

theorem tsOr_eq_empty_iff (a b : TS) : tsOr a b = TS.empty ↔ a = TS.empty ∧ b = TS.empty := by
  cases a <;> simp [tsOr]

theorem tsOr_of_ne_empty {a : TS} (h : a ≠ TS.empty) (b : TS) : tsOr a b = a := by
  cases a <;> simp_all [tsOr]

theorem tsOr_valid_left (t : Int) (b : TS) : tsOr (TS.valid t) b = TS.valid t := rfl

theorem tsOr_empty_left (b : TS) : tsOr TS.empty b = b := rfl

/-! ## The reset pass -/

theorem resetRecord_venueId (now : Int) (i : VenueInteraction) :
    (resetRecord now i).venueId = i.venueId := rfl

theorem resetRecord_likes (now : Int) (i : VenueInteraction) :
    (resetRecord now i).likes = i.likes := rfl

theorem resetRecord_lastInteraction (now : Int) (i : VenueInteraction) :
    (resetRecord now i).lastInteraction = i.lastInteraction := rfl

theorem resetRecord_lastReset (now : Int) (i : VenueInteraction) :
    (resetRecord now i).lastReset =
      if shouldReset i.lastReset now then TS.valid now else i.lastReset := rfl

theorem resetRecord_lastLikeReset (now : Int) (i : VenueInteraction) :
    (resetRecord now i).lastLikeReset =
      if shouldResetLikes (tsOr i.lastLikeReset i.lastReset) now then TS.valid now
      else tsOr i.lastLikeReset i.lastReset := rfl

theorem resetRecord_dailyLikesUsed (now : Int) (i : VenueInteraction) :
    (resetRecord now i).dailyLikesUsed =
      if shouldResetLikes (tsOr i.lastLikeReset i.lastReset) now then 0
      else i.dailyLikesUsed := rfl

/-- After a per-record reset, the visit window has no pending reset. -/
theorem shouldReset_resetRecord (now : Int) (i : VenueInteraction) :
    shouldReset (resetRecord now i).lastReset now = false := by
  rw [resetRecord_lastReset]
  by_cases h : shouldReset i.lastReset now
  · simp [h, shouldReset_valid_self]
  · simp only [Bool.not_eq_true] at h
    simp [h]

/-- After a per-record reset, the like window has no pending reset. -/
theorem shouldResetLikes_resetRecord (now : Int) (i : VenueInteraction) :
    shouldResetLikes
      (tsOr (resetRecord now i).lastLikeReset (resetRecord now i).lastReset) now = false := by
  rw [resetRecord_lastLikeReset, resetRecord_lastReset]
  by_cases hsrl : shouldResetLikes (tsOr i.lastLikeReset i.lastReset) now
  · rw [if_pos hsrl, tsOr_valid_left]
    exact shouldResetLikes_valid_self now
  · simp only [Bool.not_eq_true] at hsrl
    rw [if_neg (by simp [hsrl])]
    by_cases he : tsOr i.lastLikeReset i.lastReset = TS.empty
    · obtain ⟨h1, h2⟩ := (tsOr_eq_empty_iff _ _).mp he
      rw [he, h2, tsOr_empty_left]
      rw [if_neg (by simp [shouldReset_empty])]
      exact shouldResetLikes_empty now
    · rw [tsOr_of_ne_empty he]
      exact hsrl

/-- No record of a freshly reset state has a pending visit or like reset. -/
theorem reset_no_pending (now : Int) (s : State) :
    ∀ i ∈ resetInteractionsIfNeeded now s,
      shouldReset i.lastReset now = false ∧
      shouldResetLikes (tsOr i.lastLikeReset i.lastReset) now = false := by
  intro i hi
  unfold resetInteractionsIfNeeded at hi
  split at hi
  · obtain ⟨j, _, rfl⟩ := List.mem_map.mp hi
    exact ⟨shouldReset_resetRecord now j, shouldResetLikes_resetRecord now j⟩
  · next hcond =>
    rw [Bool.or_eq_true, not_or] at hcond
    obtain ⟨h1, h2⟩ := hcond
    simp only [List.any_eq_true, not_exists, not_and, Bool.not_eq_true] at h1 h2
    exact ⟨h1 i hi, h2 i hi⟩

/-- C3 core: a second reset pass at the same instant changes nothing. -/
theorem reset_idempotent (now : Int) (s : State) :
    resetInteractionsIfNeeded now (resetInteractionsIfNeeded now s) =
      resetInteractionsIfNeeded now s := by
  set t := resetInteractionsIfNeeded now s with ht
  have h : ∀ i ∈ t, shouldReset i.lastReset now = false ∧
      shouldResetLikes (tsOr i.lastLikeReset i.lastReset) now = false := by
    rw [ht]; exact reset_no_pending now s
  show resetInteractionsIfNeeded now t = t
  unfold resetInteractionsIfNeeded
  rw [if_neg]
  simp only [Bool.or_eq_true, List.any_eq_true, not_or, not_exists, not_and]
  constructor
  · intro x hx
    simp [(h x hx).1]
  · intro x hx
    simp [(h x hx).2]

/-! ## `findVenue` and field preservation -/

theorem findVenue_map (f : VenueInteraction → VenueInteraction)
    (hf : ∀ i, (f i).venueId = i.venueId) (v : String) (s : State) :
    findVenue (List.map f s) v = Option.map f (findVenue s v) := by
  induction s with
  | nil => rfl
  | cons x xs ih =>
    by_cases h : x.venueId = v
    · simp [findVenue, List.find?_cons_of_pos, h, hf]
    · unfold findVenue at ih ⊢
      rw [List.map_cons, List.find?_cons_of_neg, List.find?_cons_of_neg, ih]
      · simp [h]
      · simp [hf, h]

theorem findVenue_reset_none {s : State} {v : String} (now : Int)
    (h : findVenue s v = none) :
    findVenue (resetInteractionsIfNeeded now s) v = none := by
  unfold resetInteractionsIfNeeded
  split
  · rw [findVenue_map (resetRecord now) (resetRecord_venueId now) v s, h]
    rfl
  · exact h

theorem findVenue_reset_lastInteraction (now : Int) (s : State) (v : String) :
    Option.map (fun i => i.lastInteraction) (findVenue (resetInteractionsIfNeeded now s) v) =
      Option.map (fun i => i.lastInteraction) (findVenue s v) := by
  unfold resetInteractionsIfNeeded
  split
  · rw [findVenue_map (resetRecord now) (resetRecord_venueId now) v s, Option.map_map]
    rfl
  · rfl

/-! ## The daily-like quota invariant -/

theorem dailyLikesUsed_le_reset (now : Int) (s : State)
    (h : ∀ r ∈ s, r.dailyLikesUsed ≤ DAILY_LIKE_LIMIT) :
    ∀ r ∈ resetInteractionsIfNeeded now s, r.dailyLikesUsed ≤ DAILY_LIKE_LIMIT := by
  intro r hr
  unfold resetInteractionsIfNeeded at hr
  split at hr
  · obtain ⟨j, hj, rfl⟩ := List.mem_map.mp hr
    rw [resetRecord_dailyLikesUsed]
    split
    · exact Nat.zero_le _
    · exact h j hj
  · exact h r hr

theorem canLikeVenue_snd (now : Int) {v : String} (hv : v ≠ "") (s : State) :
    (canLikeVenue now v s).2 = resetInteractionsIfNeeded now s := by
  unfold canLikeVenue
  rw [if_neg hv]
  cases h : findVenue (resetInteractionsIfNeeded now s) v <;> simp [h]

/-- `likeVenue` keeps every record's `dailyLikesUsed` within the daily
limit: the quota check in `canLikeVenue` runs after the committed reset
pass, so the found record's post-reset quota must be strictly below the
limit before it is incremented. -/
theorem likeVenue_dailyLikesUsed_le (now : Int) (v ts : String) (s : State)
    (h : ∀ r ∈ s, r.dailyLikesUsed ≤ DAILY_LIKE_LIMIT) :
    ∀ r ∈ likeVenue now v ts s, r.dailyLikesUsed ≤ DAILY_LIKE_LIMIT := by
  intro r hr
  unfold likeVenue at hr
  by_cases hvts : v = "" ∨ ts = ""
  · rw [if_pos hvts] at hr
    exact h r hr
  · rw [if_neg hvts] at hr
    push_neg at hvts
    obtain ⟨hv, _⟩ := hvts
    simp only at hr
    rw [canLikeVenue_snd now hv s] at hr
    have hP1 : ∀ x ∈ resetInteractionsIfNeeded now s, x.dailyLikesUsed ≤ DAILY_LIKE_LIMIT :=
      dailyLikesUsed_le_reset now s h
    by_cases hok : (canLikeVenue now v s).1
    · rw [if_neg (by simp [hok])] at hr
      cases hfv : findVenue (resetInteractionsIfNeeded now s) v with
      | none =>
        rw [hfv] at hr
        rcases List.mem_append.mp hr with hmem | hmem
        · exact hP1 r hmem
        · rw [List.mem_singleton.mp hmem]
          exact Nat.le_refl _
      | some ex =>
        have hexmem : ex ∈ resetInteractionsIfNeeded now s := List.mem_of_find?_eq_some hfv
        have hsrl : shouldResetLikes (tsOr ex.lastLikeReset ex.lastReset) now = false :=
          (reset_no_pending now s ex hexmem).2
        have hex0 : ex.dailyLikesUsed = 0 := by
          unfold canLikeVenue at hok
          rw [if_neg hv] at hok
          simp only [hfv] at hok
          simp [hsrl, DAILY_LIKE_LIMIT] at hok
          omega
        rw [hfv] at hr
        obtain ⟨x, hx, rfl⟩ := List.mem_map.mp hr
        by_cases hxv : x.venueId == v
        · simp only [hxv, if_true, hex0]
          cases hb : shouldResetLikes ex.lastLikeReset now <;>
            simp [hb, DAILY_LIKE_LIMIT]
        · simp only [hxv, if_false]
          exact hP1 x hx
    · simp only [Bool.not_eq_true] at hok
      rw [if_pos (by simp [hok])] at hr
      exact hP1 r hr

theorem runLikes_cons (c : Int × String × String) (cs : List (Int × String × String))
    (s : State) : runLikes (c :: cs) s = runLikes cs (likeVenue c.1 c.2.1 c.2.2 s) := rfl

theorem runLikes_dailyLikesUsed_le (calls : List (Int × String × String)) :
    ∀ s : State, (∀ r ∈ s, r.dailyLikesUsed ≤ DAILY_LIKE_LIMIT) →
      ∀ r ∈ runLikes calls s, r.dailyLikesUsed ≤ DAILY_LIKE_LIMIT := by
  induction calls with
  | nil => intro s h; exact h
  | cons c cs ih =>
    intro s h
    rw [runLikes_cons]
    exact ih _ (likeVenue_dailyLikesUsed_le c.1 c.2.1 c.2.2 s h)

/-! ## Cooldown scenario helpers -/

/-- A single-record state with no pending resets is untouched by the
reset pass. -/
theorem reset_noop (now : Int) (r : VenueInteraction)
    (h1 : shouldReset r.lastReset now = false)
    (h2 : shouldResetLikes (tsOr r.lastLikeReset r.lastReset) now = false) :
    resetInteractionsIfNeeded now [r] = [r] := by
  unfold resetInteractionsIfNeeded
  simp [h1, h2]

theorem findVenue_singleton {r : VenueInteraction} {v : String} (hv : r.venueId = v) :
    findVenue [r] v = some r :=
  List.find?_cons_of_pos _ (by simp [hv])

/-! ## Popularity-sort lemmas -/

theorem insertByLikesDesc_head? (x : VenueLikes) (l : List VenueLikes) :
    (insertByLikesDesc x l).head? = some x ∨ (insertByLikesDesc x l).head? = l.head? := by
  cases l with
  | nil => left; rfl
  | cons y ys =>
    unfold insertByLikesDesc
    by_cases h : y.likes < x.likes
    · left; simp [h]
    · right; simp [h]

theorem chain_insertByLikesDesc (x : VenueLikes) (l : List VenueLikes)
    (h : List.Chain' (fun a b => b.likes ≤ a.likes) l) :
    List.Chain' (fun a b => b.likes ≤ a.likes) (insertByLikesDesc x l) := by
  induction l with
  | nil => simp [insertByLikesDesc]
  | cons y ys ih =>
    unfold insertByLikesDesc
    by_cases hxy : y.likes < x.likes
    · rw [if_pos hxy, List.chain'_cons]
      exact ⟨Nat.le_of_lt hxy, h⟩
    · rw [if_neg hxy, List.chain'_cons']
      have hys := (List.chain'_cons'.mp h).2
      have hyh := (List.chain'_cons'.mp h).1
      refine ⟨?_, ih hys⟩
      intro z hz
      rcases insertByLikesDesc_head? x ys with hh | hh
      · rw [hh] at hz
        simp only [Option.mem_def, Option.some.injEq] at hz
        subst hz
        exact Nat.le_of_not_lt hxy
      · rw [hh] at hz
        exact hyh z hz

theorem chain_sortByLikesDesc_aux (l : List VenueLikes) :
    ∀ acc, List.Chain' (fun a b => b.likes ≤ a.likes) acc →
      List.Chain' (fun a b => b.likes ≤ a.likes)
        (List.foldl (fun acc x => insertByLikesDesc x acc) acc l) := by
  induction l with
  | nil => intro acc h; exact h
  | cons x xs ih =>
    intro acc h
    exact ih _ (chain_insertByLikesDesc x acc h)

theorem chain_sortByLikesDesc (l : List VenueLikes) :
    List.Chain' (fun a b => b.likes ≤ a.likes) (sortByLikesDesc l) :=
  chain_sortByLikesDesc_aux l [] List.chain'_nil

/-! ## Popular-arrival-time emptiness -/

theorem getPopularArrivalTime_eq_none (v : String) (s : State)
    (h : ∀ r ∈ s, ¬(r.venueId = v ∧ truthyStr r.arrivalTime = true ∧ 0 < r.count)) :
    getPopularArrivalTime v s = none := by
  unfold getPopularArrivalTime
  by_cases hv : v = ""
  · rw [if_pos hv]
  · rw [if_neg hv]
    have hf : qualifyingInteractions v s = [] := by
      unfold qualifyingInteractions
      rw [List.filter_eq_nil_iff]
      intro a ha
      have ha2 := h a ha
      simp only [Bool.and_eq_true, beq_iff_eq, decide_eq_true_eq] at ha2 ⊢
      tauto
    rw [if_pos (by rw [hf]; rfl)]

/-! ## Frame lemmas for the reset pass -/

theorem foldl_likes_map (now : Int) (s : State) : ∀ acc : Nat,
    List.foldl (fun t i => t + i.likes) acc (List.map (resetRecord now) s) =
      List.foldl (fun t i => t + i.likes) acc s := by
  induction s with
  | nil => intro _; rfl
  | cons x xs ih =>
    intro acc
    rw [List.map_cons, List.foldl_cons, List.foldl_cons, resetRecord_likes]
    exact ih _

theorem getLikeCount_reset (now : Int) (s : State) (v : String) :
    getLikeCount v (resetInteractionsIfNeeded now s) = getLikeCount v s := by
  unfold resetInteractionsIfNeeded
  split
  · unfold getLikeCount
    by_cases hv : v = ""
    · rw [if_pos hv, if_pos hv]
    · rw [if_neg hv, if_neg hv]
      rw [findVenue_map (resetRecord now) (resetRecord_venueId now) v s]
      cases findVenue s v <;> rfl
  · rfl

theorem getTotalLikes_reset (now : Int) (s : State) :
    getTotalLikes (resetInteractionsIfNeeded now s) = getTotalLikes s := by
  unfold resetInteractionsIfNeeded
  split
  · exact foldl_likes_map now s 0
  · rfl

/-! ## Fresh-record creation by `likeVenue` -/

theorem findVenue_append_of_none (l : State) (v : String) :
    ∀ s : State, findVenue s v = none → findVenue (s ++ l) v = findVenue l v := by
  intro s
  induction s with
  | nil => intro _; rfl
  | cons x xs ih =>
    intro h
    unfold findVenue at h ⊢
    rw [List.find?_eq_none] at h
    rw [List.cons_append, List.find?_cons_of_neg]
    · have hxs : findVenue xs v = none := by
        unfold findVenue
        rw [List.find?_eq_none]
        intro y hy
        exact h y (List.mem_cons_of_mem x hy)
      exact ih hxs
    · exact h x (List.mem_cons_self x xs)

theorem likeVenue_fresh (now : Int) {v ts : String} (hv : v ≠ "") (hts : ts ≠ "")
    {s : State} (h : findVenue s v = none) :
    likeVenue now v ts s = resetInteractionsIfNeeded now s ++
      [{ venueId := v, count := 0, likes := 1, lastReset := TS.valid now,
         lastInteraction := TS.empty, arrivalTime := none, timestamp := TS.valid now,
         lastLikeReset := TS.valid now, dailyLikesUsed := 1, likeTimeSlot := some ts }] := by
  unfold likeVenue
  rw [if_neg (by simp [hv, hts])]
  have hfr : findVenue (resetInteractionsIfNeeded now s) v = none := findVenue_reset_none now h
  have hc : canLikeVenue now v s = (true, resetInteractionsIfNeeded now s) := by
    unfold canLikeVenue
    rw [if_neg hv]
    simp [hfr]
  simp only [hc, hfr]
  simp

theorem map_field_reset {β : Type} (now : Int) (s : State) (f : VenueInteraction → β)
    (hf : ∀ i, f (resetRecord now i) = f i) :
    List.map f (resetInteractionsIfNeeded now s) = List.map f s := by
  unfold resetInteractionsIfNeeded
  split
  · rw [List.map_map]
    have hcomp : f ∘ resetRecord now = f := funext hf
    rw [hcomp]
  · rfl

/-! ## String-sort lemmas -/

theorem charsLt_asymm : ∀ as bs : List Char, charsLt as bs = true → charsLt bs as = false := by
  intro as
  induction as with
  | nil =>
    intro bs h
    cases bs with
    | nil => exact absurd h (by simp [charsLt])
    | cons b bs => rfl
  | cons a as ih =>
    intro bs h
    cases bs with
    | nil => exact absurd h (by simp [charsLt])
    | cons b bs =>
      unfold charsLt at h ⊢
      by_cases h1 : a.toNat < b.toNat
      · rw [if_neg (Nat.lt_asymm h1), if_pos h1]
      · by_cases h2 : b.toNat < a.toNat
        · rw [if_neg h1, if_pos h2] at h
          exact absurd h (by simp)
        · rw [if_neg h1, if_neg h2] at h
          rw [if_neg h2, if_neg h1]
          exact ih bs h

theorem jsStrLt_asymm (a b : String) (h : jsStrLt a b = true) : jsStrLt b a = false :=
  charsLt_asymm a.toList b.toList h

theorem insertAsc_head? (x : String) (l : List String) :
    (insertAsc x l).head? = some x ∨ (insertAsc x l).head? = l.head? := by
  cases l with
  | nil => left; rfl
  | cons y ys =>
    unfold insertAsc
    by_cases h : jsStrLt x y
    · left; simp [h]
    · right; simp [h]

theorem chain_insertAsc (x : String) (l : List String)
    (h : List.Chain' (fun a b => jsStrLt b a = false) l) :
    List.Chain' (fun a b => jsStrLt b a = false) (insertAsc x l) := by
  induction l with
  | nil => simp [insertAsc]
  | cons y ys ih =>
    unfold insertAsc
    by_cases hxy : jsStrLt x y
    · rw [if_pos hxy, List.chain'_cons]
      exact ⟨jsStrLt_asymm x y hxy, h⟩
    · rw [if_neg hxy, List.chain'_cons']
      refine ⟨?_, ih (List.chain'_cons'.mp h).2⟩
      intro z hz
      rcases insertAsc_head? x ys with hh | hh
      · rw [hh] at hz
        simp only [Option.mem_def, Option.some.injEq] at hz
        subst hz
        simpa using hxy
      · rw [hh] at hz
        exact (List.chain'_cons'.mp h).1 z hz

theorem chain_sortStringsAsc_aux (l : List String) :
    ∀ acc, List.Chain' (fun a b => jsStrLt b a = false) acc →
      List.Chain' (fun a b => jsStrLt b a = false)
        (List.foldl (fun acc x => insertAsc x acc) acc l) := by
  induction l with
  | nil => intro acc h; exact h
  | cons x xs ih =>
    intro acc h
    exact ih _ (chain_insertAsc x acc h)

theorem chain_sortStringsAsc (l : List String) :
    List.Chain' (fun a b => jsStrLt b a = false) (sortStringsAsc l) :=
  chain_sortStringsAsc_aux l [] List.chain'_nil

theorem mem_insertAsc (x : String) (l : List String) (a : String) :
    a ∈ insertAsc x l ↔ a = x ∨ a ∈ l := by
  induction l with
  | nil => simp [insertAsc]
  | cons y ys ih =>
    unfold insertAsc
    by_cases h : jsStrLt x y
    · simp [h]
    · rw [if_neg h]
      simp only [List.mem_cons, ih]
      tauto

theorem mem_sortStringsAsc_aux (l : List String) :
    ∀ (acc : List String) (a : String),
      a ∈ List.foldl (fun acc x => insertAsc x acc) acc l ↔ a ∈ acc ∨ a ∈ l := by
  induction l with
  | nil => intro acc a; simp
  | cons x xs ih =>
    intro acc a
    rw [List.foldl_cons, ih, mem_insertAsc]
    simp only [List.mem_cons]
    tauto

theorem mem_sortStringsAsc (l : List String) (a : String) :
    a ∈ sortStringsAsc l ↔ a ∈ l := by
  unfold sortStringsAsc
  rw [mem_sortStringsAsc_aux]
  simp

/-! ## Arrival-key and maximum lemmas -/

theorem mem_insertKey (ks : List String) (k a : String) (h : a ∈ ks) :
    a ∈ insertKey ks k := by
  unfold insertKey
  split
  · exact h
  · exact List.mem_append_left _ h

theorem insertKey_self (ks : List String) (k : String) : k ∈ insertKey ks k := by
  unfold insertKey
  split
  · assumption
  · exact List.mem_append_right _ (List.mem_singleton.mpr rfl)

theorem mem_foldl_insertKey (l : List VenueInteraction) :
    ∀ (acc : List String) (a : String), a ∈ acc →
      a ∈ List.foldl
        (fun ks i =>
          if truthyStr i.arrivalTime then insertKey ks (Option.getD i.arrivalTime "") else ks)
        acc l := by
  induction l with
  | nil => intro acc a h; exact h
  | cons x xs ih =>
    intro acc a h
    rw [List.foldl_cons]
    apply ih
    by_cases hx : truthyStr x.arrivalTime
    · rw [if_pos hx]
      exact mem_insertKey _ _ _ h
    · rw [if_neg hx]
      exact h

theorem arrivalKeys_ne_nil {q : List VenueInteraction}
    (htruthy : ∀ i ∈ q, truthyStr i.arrivalTime = true) (hq : q ≠ []) :
    arrivalKeys q ≠ [] := by
  cases hq0 : q with
  | nil => exact absurd hq0 hq
  | cons x rest =>
    have hx : truthyStr x.arrivalTime = true :=
      htruthy x (hq0 ▸ List.mem_cons_self x rest)
    apply List.ne_nil_of_mem (a := Option.getD x.arrivalTime "")
    unfold arrivalKeys
    rw [List.foldl_cons]
    apply mem_foldl_insertKey
    rw [if_pos hx]
    exact insertKey_self _ _

theorem le_foldl_max_init : ∀ (l : List Nat) (a : Nat), a ≤ List.foldl Nat.max a l := by
  intro l
  induction l with
  | nil => intro a; exact Nat.le_refl a
  | cons x xs ih =>
    intro a
    rw [List.foldl_cons]
    exact Nat.le_trans (Nat.le_max_left a x) (ih (Nat.max a x))

theorem le_foldl_max_mem : ∀ (l : List Nat) (a x : Nat), x ∈ l → x ≤ List.foldl Nat.max a l := by
  intro l
  induction l with
  | nil => intro a x h; exact absurd h (List.not_mem_nil x)
  | cons y ys ih =>
    intro a x h
    rw [List.foldl_cons]
    rcases List.mem_cons.mp h with rfl | h2
    · exact Nat.le_trans (Nat.le_max_right a x) (le_foldl_max_init ys (Nat.max a x))
    · exact ih (Nat.max a y) x h2

theorem foldl_max_le : ∀ (l : List Nat) (a b : Nat), a ≤ b → (∀ x ∈ l, x ≤ b) →
    List.foldl Nat.max a l ≤ b := by
  intro l
  induction l with
  | nil => intro a b ha _; exact ha
  | cons x xs ih =>
    intro a b ha hall
    rw [List.foldl_cons]
    exact ih (Nat.max a x) b (Nat.max_le.mpr ⟨ha, hall x (List.mem_cons_self x xs)⟩)
      (fun y hy => hall y (List.mem_cons_of_mem x hy))

/-- A recorded slot aggregates to the `Math.max` of all aggregated
values iff its count dominates every recorded slot's count. -/
theorem timeCount_eq_max_iff (q : List VenueInteraction) (t : String)
    (ht : t ∈ arrivalKeys q) :
    timeCount q t = List.foldl Nat.max 0 (List.map (timeCount q) (arrivalKeys q)) ↔
      ∀ u ∈ arrivalKeys q, timeCount q u ≤ timeCount q t := by
  constructor
  · intro he u hu
    rw [he]
    exact le_foldl_max_mem _ _ _ (List.mem_map_of_mem _ hu)
  · intro hall
    apply Nat.le_antisymm
    · exact le_foldl_max_mem _ _ _ (List.mem_map_of_mem _ ht)
    · apply foldl_max_le
      · exact Nat.zero_le _
      · intro x hx
        obtain ⟨u, hu, rfl⟩ := List.mem_map.mp hx
        exact hall u hu

/-! ## Stability of the popularity sort -/

theorem chain_head_bound (y : VenueLikes) (ys : List VenueLikes)
    (h : List.Chain' (fun a b => b.likes ≤ a.likes) (y :: ys)) :
    ∀ z ∈ ys, z.likes ≤ y.likes := by
  induction ys generalizing y with
  | nil => intro z hz; exact absurd hz (List.not_mem_nil z)
  | cons w ws ih =>
    intro z hz
    have h1 : w.likes ≤ y.likes := (List.chain'_cons.mp h).1
    have h2 := (List.chain'_cons.mp h).2
    rcases List.mem_cons.mp hz with rfl | hz2
    · exact h1
    · exact Nat.le_trans (ih w h2 z hz2) h1

/-- Inserting an element with the filtered-for like count appends it
after all equal-count elements of a descending-sorted accumulator. -/
theorem filter_insertByLikesDesc_eq (k : Nat) (x : VenueLikes) (hx : x.likes = k) :
    ∀ acc : List VenueLikes, List.Chain' (fun a b => b.likes ≤ a.likes) acc →
      List.filter (fun z => z.likes == k) (insertByLikesDesc x acc) =
        List.filter (fun z => z.likes == k) acc ++ [x] := by
  intro acc
  induction acc with
  | nil =>
    intro _
    simp [insertByLikesDesc, hx]
  | cons y ys ih =>
    intro h
    unfold insertByLikesDesc
    by_cases hxy : y.likes < x.likes
    · rw [if_pos hxy]
      have hnone : List.filter (fun z => z.likes == k) (y :: ys) = [] := by
        rw [List.filter_eq_nil_iff]
        intro z hz
        have hzb : z.likes ≤ y.likes := by
          rcases List.mem_cons.mp hz with rfl | hz2
          · exact Nat.le_refl _
          · exact chain_head_bound y ys h z hz2
        simp only [beq_iff_eq]
        omega
      rw [List.filter_cons_of_pos (by simp [hx]), hnone]
      rfl
    · rw [if_neg hxy]
      have hys := (List.chain'_cons'.mp h).2
      by_cases hyk : y.likes = k
      · rw [List.filter_cons_of_pos (by simp [hyk]), List.filter_cons_of_pos (by simp [hyk]),
          ih hys, List.cons_append]
      · rw [List.filter_cons_of_neg (by simp [hyk]), List.filter_cons_of_neg (by simp [hyk]),
          ih hys]

/-- Inserting an element with a different like count leaves the filtered
subsequence untouched. -/
theorem filter_insertByLikesDesc_ne (k : Nat) (x : VenueLikes) (hx : ¬x.likes = k) :
    ∀ acc : List VenueLikes,
      List.filter (fun z => z.likes == k) (insertByLikesDesc x acc) =
        List.filter (fun z => z.likes == k) acc := by
  intro acc
  induction acc with
  | nil => simp [insertByLikesDesc, hx]
  | cons y ys ih =>
    unfold insertByLikesDesc
    by_cases hxy : y.likes < x.likes
    · rw [if_pos hxy, List.filter_cons_of_neg (by simp [hx])]
    · rw [if_neg hxy]
      by_cases hyk : y.likes = k
      · rw [List.filter_cons_of_pos (by simp [hyk]), List.filter_cons_of_pos (by simp [hyk]), ih]
      · rw [List.filter_cons_of_neg (by simp [hyk]), List.filter_cons_of_neg (by simp [hyk]), ih]

theorem filter_foldl_insertByLikesDesc (k : Nat) :
    ∀ (l acc : List VenueLikes), List.Chain' (fun a b => b.likes ≤ a.likes) acc →
      List.filter (fun z => z.likes == k)
          (List.foldl (fun acc x => insertByLikesDesc x acc) acc l) =
        List.filter (fun z => z.likes == k) acc ++ List.filter (fun z => z.likes == k) l := by
  intro l
  induction l with
  | nil => intro acc _; simp
  | cons x xs ih =>
    intro acc hacc
    rw [List.foldl_cons, ih _ (chain_insertByLikesDesc x acc hacc)]
    by_cases hx : x.likes = k
    · rw [filter_insertByLikesDesc_eq k x hx acc hacc,
        List.filter_cons_of_pos (by simp [hx]), List.append_assoc, List.singleton_append]
    · rw [filter_insertByLikesDesc_ne k x hx acc, List.filter_cons_of_neg (by simp [hx])]

/-- `sortByLikesDesc` is stable: for every like count `k`, the
subsequence of entries holding exactly `k` likes is returned unchanged,
in its original (array insertion) order. -/
theorem sortByLikesDesc_stable (l : List VenueLikes) (k : Nat) :
    List.filter (fun z => z.likes == k) (sortByLikesDesc l) =
      List.filter (fun z => z.likes == k) l := by
  unfold sortByLikesDesc
  rw [filter_foldl_insertByLikesDesc k l [] List.chain'_nil]
  rfl

/-- For every entity with at least one qualifying interaction,
`getPopularArrivalTime` returns the `/`-join of exactly the tied-at-
maximum slots, lexicographically sorted. -/
theorem popularArrivalTime_joins_ties (v : String) (s : State) (hv : v ≠ "")
    (hq : qualifyingInteractions v s ≠ []) :
    ∃ out, getPopularArrivalTime v s = some out ∧
      joinsAllTiedSlots (qualifyingInteractions v s) out := by
  have htruthy : ∀ i ∈ qualifyingInteractions v s, truthyStr i.arrivalTime = true := by
    intro i hi
    unfold qualifyingInteractions at hi
    have h2 := (List.mem_filter.mp hi).2
    simp only [Bool.and_eq_true] at h2
    exact h2.1.2
  have hkeys : arrivalKeys (qualifyingInteractions v s) ≠ [] := arrivalKeys_ne_nil htruthy hq
  have hlen : ¬(qualifyingInteractions v s).length = 0 := by
    intro h
    exact hq (List.length_eq_zero.mp h)
  have hklen : ¬(arrivalKeys (qualifyingInteractions v s)).length = 0 := by
    intro h
    exact hkeys (List.length_eq_zero.mp h)
  refine ⟨String.intercalate "/" (sortStringsAsc (List.filter
      (fun t => timeCount (qualifyingInteractions v s) t ==
        List.foldl Nat.max 0 (List.map (timeCount (qualifyingInteractions v s))
          (arrivalKeys (qualifyingInteractions v s))))
      (arrivalKeys (qualifyingInteractions v s)))), ?_, ?_⟩
  · unfold getPopularArrivalTime
    rw [if_neg hv, if_neg hlen, if_neg hklen]
  · refine ⟨sortStringsAsc (List.filter
        (fun t => timeCount (qualifyingInteractions v s) t ==
          List.foldl Nat.max 0 (List.map (timeCount (qualifyingInteractions v s))
            (arrivalKeys (qualifyingInteractions v s))))
        (arrivalKeys (qualifyingInteractions v s))), rfl, chain_sortStringsAsc _, ?_⟩
    intro t
    rw [mem_sortStringsAsc, List.mem_filter]
    constructor
    · rintro ⟨htk, htm⟩
      rw [beq_iff_eq] at htm
      exact ⟨htk, (timeCount_eq_max_iff _ t htk).mp htm⟩
    · rintro ⟨htk, hall⟩
      refine ⟨htk, ?_⟩
      rw [beq_iff_eq]
      exact (timeCount_eq_max_iff _ t htk).mpr hall

/-! ## Claim theorems -/

/-- C1: for every entity record and after any sequence of `likeVenue`
calls at any times (starting from the store's initial empty array),
`dailyLikesUsed` stays within `[0, DAILY_LIKE_LIMIT]` — the lower bound
holding because the field is a natural number of the model and is only
ever set to `0` or incremented.  `likeVenue` increments it only when
`canLikeVenue` holds after the committed reset pass, so the bound is an
invariant at all observable times. -/
theorem dailyLikesUsed_within_limit (calls : List (Int × String × String)) :
    (runLikes calls []).all (fun r => decide (r.dailyLikesUsed ≤ DAILY_LIKE_LIMIT)) = true := by
  rw [List.all_eq_true]
  intro r hr
  simp only [decide_eq_true_eq]
  exact runLikes_dailyLikesUsed_le calls [] (fun x hx => absurd hx (List.not_mem_nil x)) r hr

/-- C2 counterexample: the claim "a second `incrementInteraction` call at
`T + 1h` is rejected with no mutation of the record (its visit count is
unchanged)" fails when a reset boundary lies between the two calls.  A
visit accepted at `T = 270` (04:30 local) gives visit count 1; the call
at `330` (05:30, one hour later) is rejected by the cooldown, yet the
reset pass committed inside it zeroes the visit count: the record mutates
from count 1 to count 0. -/
theorem visit_cooldown_counterexample :
    Option.map (fun i => i.count)
      (findVenue (incrementInteraction 270 "bar1" none []) "bar1") = some 1 ∧
    (canInteract 330 "bar1" (incrementInteraction 270 "bar1" none [])).1 = false ∧
    Option.map (fun i => i.count)
      (findVenue (incrementInteraction 330 "bar1" none
        (incrementInteraction 270 "bar1" none [])) "bar1") = some 0 := by
  decide

/-- C2 (amended): for an entity whose record shows a visit accepted at
`T`, a second `incrementInteraction` at `T + 1h` is rejected and — when
no visit- or like-window boundary triggers the embedded reset pass — the
state is completely unchanged, and a call at `T + 2h` (cooldown
inclusive) is accepted, incrementing the visit count and stamping the new
interaction time. -/
theorem visit_cooldown_amended (T : Int) (v : String) (a : Option String)
    (r : VenueInteraction)
    (hv : r.venueId = v) (hne : v ≠ "") (hli : r.lastInteraction = TS.valid T)
    (h60r : shouldReset r.lastReset (T + 60) = false)
    (h60l : shouldResetLikes (tsOr r.lastLikeReset r.lastReset) (T + 60) = false)
    (h120r : shouldReset r.lastReset (T + 120) = false)
    (h120l : shouldResetLikes (tsOr r.lastLikeReset r.lastReset) (T + 120) = false) :
    incrementInteraction (T + 60) v a [r] = [r] ∧
    incrementInteraction (T + 120) v a [r] =
      [{ r with
          count := r.count + 1, lastInteraction := TS.valid (T + 120),
          arrivalTime := strOr a r.arrivalTime, timestamp := TS.valid (T + 120) }] := by
  have hr60 := reset_noop (T + 60) r h60r h60l
  have hr120 := reset_noop (T + 120) r h120r h120l
  have hfv : findVenue [r] v = some r := findVenue_singleton hv
  have hci60 : canInteract (T + 60) v [r] = (false, [r]) := by
    unfold canInteract
    rw [if_neg hne]
    simp only [hr60, hfv, Option.map_some']
    rw [hli]
    unfold canInteractWithVenue INTERACTION_COOLDOWN_HOURS
    simp only [Prod.mk.injEq]
    refine ⟨?_, trivial⟩
    rw [decide_eq_false_iff_not]
    omega
  have hci120 : canInteract (T + 120) v [r] = (true, [r]) := by
    unfold canInteract
    rw [if_neg hne]
    simp only [hr120, hfv, Option.map_some']
    rw [hli]
    unfold canInteractWithVenue INTERACTION_COOLDOWN_HOURS
    simp only [Prod.mk.injEq]
    refine ⟨?_, trivial⟩
    rw [decide_eq_true_eq]
    omega
  constructor
  · unfold incrementInteraction
    rw [if_neg hne]
    simp only [hr60, hci60]
    simp
  · unfold incrementInteraction
    rw [if_neg hne]
    simp only [hr120, hci120]
    simp [hfv, hv]

/-- C3: `resetInteractionsIfNeeded` (the spec's `applyPendingResets`) is
idempotent: a second pass at the same instant leaves the ledger
unchanged. -/
theorem applyPendingResets_idempotent (now : Int) (s : State) :
    resetInteractionsIfNeeded now (resetInteractionsIfNeeded now s) =
      resetInteractionsIfNeeded now s :=
  reset_idempotent now s

/-- C4: on a parseable `lastLikeReset`, `shouldResetLikes` returns true
iff `now` is at or after today's 04:59 boundary and the last reset
predates it, or `now` is before today's boundary and the last reset
predates yesterday's boundary — exactly the spec's `likeWindowElapsed`. -/
theorem shouldResetLikes_matches_spec (t now : Int) :
    shouldResetLikes (TS.valid t) now = likeWindowElapsedSpec t now := by
  show (if now ≥ likeBoundary now ∧ t < likeBoundary now then true
      else if now < likeBoundary now then decide (t < likeBoundary now - 1440)
      else false) =
    likeWindowElapsedSpec t now
  unfold likeWindowElapsedSpec
  by_cases h1 : now ≥ likeBoundary now ∧ t < likeBoundary now
  · rw [if_pos h1]
    exact (decide_eq_true (Or.inl h1)).symm
  · rw [if_neg h1]
    by_cases h2 : now < likeBoundary now
    · rw [if_pos h2, decide_eq_decide]
      constructor
      · intro h3
        exact Or.inr ⟨h2, h3⟩
      · intro h3
        rcases h3 with h3 | h3
        · omega
        · exact h3.2
    · rw [if_neg h2, eq_comm, decide_eq_false_iff_not]
      rintro (h3 | h3)
      · exact h1 h3
      · exact h2 h3.1

/-- C5: window predicates fail closed on malformed timestamps
(`shouldReset` and `shouldResetLikes` return false on the empty string
and on unparseable input), and an absent or empty `lastInteraction`
leaves the entity eligible — but a malformed non-empty `lastInteraction`
makes `canInteractWithVenue` return false: `new Date` never throws, so
the `catch { return true }` is dead code and the `NaN` comparison blocks
the entity, contradicting the claim. -/
theorem malformed_timestamp_behavior :
    shouldReset TS.invalid 0 = false ∧ shouldResetLikes TS.invalid 0 = false ∧
    shouldReset TS.empty 0 = false ∧ shouldResetLikes TS.empty 0 = false ∧
    canInteractWithVenue none 0 = true ∧ canInteractWithVenue (some TS.empty) 0 = true ∧
    canInteractWithVenue (some TS.invalid) 0 = false := by
  decide

/-- C6: for every entity and ledger, `getPopularArrivalTime` returns the
`/`-join of a lexicographically sorted list holding exactly the slots
whose aggregated visit count is maximal (`joinsAllTiedSlots`) — so every
tied slot appears, never an arbitrary single winner; concretely, 3
visits of `bar1` tagged `22:00` stored before 3 visits tagged `21:00`
yield `"21:00/22:00"`; and it returns `null` whenever no record of the
entity has a non-empty arrival slot and positive count. -/
theorem popularArrivalTime_ties_and_empty :
    getPopularArrivalTime "bar1" exampleTieState = some "21:00/22:00" ∧
    (∀ (v : String) (s : State),
      (∀ r ∈ s, ¬(r.venueId = v ∧ truthyStr r.arrivalTime = true ∧ 0 < r.count)) →
      getPopularArrivalTime v s = none) ∧
    (∀ (v : String) (s : State), v ≠ "" → qualifyingInteractions v s ≠ [] →
      ∃ out, getPopularArrivalTime v s = some out ∧
        joinsAllTiedSlots (qualifyingInteractions v s) out) :=
  ⟨by decide, fun v s h => getPopularArrivalTime_eq_none v s h,
    fun v s hv hq => popularArrivalTime_joins_ties v s hv hq⟩

/-- C6 witness: the emptiness half applied to an entity with no
qualifying interaction, and the tie half instantiated at the two-slot
tie fixture. -/
theorem popularArrivalTime_ties_and_empty_witness :
    getPopularArrivalTime "nowhere" [] = none ∧
    (getPopularArrivalTime "bar1" exampleTieState = some "21:00/22:00" ∧
      joinsAllTiedSlots (qualifyingInteractions "bar1" exampleTieState) "21:00/22:00") := by
  constructor
  · exact popularArrivalTime_ties_and_empty.2.1 "nowhere" []
      (fun r hr => absurd hr (List.not_mem_nil r))
  · obtain ⟨out, hout, hjoin⟩ :=
      popularArrivalTime_ties_and_empty.2.2 "bar1" exampleTieState (by decide) (by decide)
    have ho : out = "21:00/22:00" := by
      have h1 := popularArrivalTime_ties_and_empty.1
      rw [hout] at h1
      exact Option.some.inj h1
    exact ⟨popularArrivalTime_ties_and_empty.1, ho ▸ hjoin⟩

/-- C7 counterexample: with entities `b` and `a` holding 5 likes each
(`b` stored first), `getMostPopularVenues` returns `b` before `a`
although `a` is lexicographically smaller — the comparator
`(a, b) => b.likes - a.likes` never consults the identifier, so ties keep
array order, contradicting "ties broken by entity identifier
ascending". -/
theorem mostPopular_tie_not_id_ascending :
    getMostPopularVenues examplePopularState =
      [{ venueId := "b", likes := 5 }, { venueId := "a", likes := 5 }] ∧
    jsStrLt "a" "b" = true ∧
    getMostPopularVenues examplePopularState ≠
      [{ venueId := "a", likes := 5 }, { venueId := "b", likes := 5 }] := by
  decide

/-- C7 (amended): `getMostPopularVenues` returns at most ten entries in
cumulative-like-count descending order, and equals the first ten entries
of the stable descending sort of the ledger's (id, likes) projections;
that sort is stable for every input and every like count — the
subsequence of entries with any given like count is returned unchanged,
in ledger (array insertion) order — so ties are never reordered by
identifier. -/
theorem mostPopular_sorted_desc_stable :
    (∀ s : State,
      List.Chain' (fun a b => b.likes ≤ a.likes) (getMostPopularVenues s) ∧
      (getMostPopularVenues s).length ≤ 10) ∧
    (∀ s : State, getMostPopularVenues s =
      List.take 10 (sortByLikesDesc
        (List.map (fun i => { venueId := i.venueId, likes := i.likes })
          (List.filter (fun i => i.venueId ≠ "") s)))) ∧
    (∀ (l : List VenueLikes) (k : Nat),
      List.filter (fun z => z.likes == k) (sortByLikesDesc l) =
        List.filter (fun z => z.likes == k) l) ∧
    getMostPopularVenues examplePopularState =
      [{ venueId := "b", likes := 5 }, { venueId := "a", likes := 5 }] := by
  refine ⟨?_, fun s => rfl, fun l k => sortByLikesDesc_stable l k, by decide⟩
  intro s
  constructor
  · unfold getMostPopularVenues
    exact (chain_sortByLikesDesc _).take 10
  · unfold getMostPopularVenues
    rw [List.length_take]
    exact Nat.min_le_left _ _

/-- C8: the reset pass never changes any record's cumulative `likes` or
`venueId` (nor `lastInteraction` or `timestamp`): per-entity
`getLikeCount` and global `getTotalLikes` are identical before and after
`resetInteractionsIfNeeded`. -/
theorem reset_preserves_likes (now : Int) (s : State) (v : String) :
    getLikeCount v (resetInteractionsIfNeeded now s) = getLikeCount v s ∧
    getTotalLikes (resetInteractionsIfNeeded now s) = getTotalLikes s ∧
    List.map (fun i => i.venueId) (resetInteractionsIfNeeded now s) =
      List.map (fun i => i.venueId) s ∧
    List.map (fun i => i.likes) (resetInteractionsIfNeeded now s) =
      List.map (fun i => i.likes) s ∧
    List.map (fun i => i.lastInteraction) (resetInteractionsIfNeeded now s) =
      List.map (fun i => i.lastInteraction) s :=
  ⟨getLikeCount_reset now s v, getTotalLikes_reset now s,
    map_field_reset now s _ (fun _ => rfl),
    map_field_reset now s _ (fun _ => rfl),
    map_field_reset now s _ (fun _ => rfl)⟩

/-- C9 counterexample: on a missing identifier or time-slot the ledger is
indeed unchanged and nothing throws, but the caller does not "get a
boolean false": both store methods are typed `=> void` and return
`undefined` on every path. -/
theorem emptyId_returns_undefined_not_false :
    likeVenueRet 0 "" "21:00" [] ≠ some false ∧
    incrementInteractionRet 0 "" none [] ≠ some false ∧
    likeVenue 0 "" "21:00" [] = [] ∧
    incrementInteraction 0 "" none [] = [] := by
  decide

/-- C9 (amended): a `incrementInteraction` call with an empty entity
identifier, and a `likeVenue` call with an empty entity identifier or an
empty time-slot, silently leave the ledger unchanged (and, every path
being total, no exception escapes); the caller receives `undefined` — no
boolean — rather than the boolean `false`. -/
theorem emptyId_rejected_silently :
    ∀ (now : Int) (v ts : String) (a : Option String) (s : State),
      likeVenue now "" ts s = s ∧ likeVenue now v "" s = s ∧
      incrementInteraction now "" a s = s ∧
      likeVenueRet now v ts s = none ∧ incrementInteractionRet now "" a s = none := by
  intro now v ts a s
  refine ⟨?_, ?_, ?_, rfl, rfl⟩
  · unfold likeVenue
    rw [if_pos (Or.inl rfl)]
  · unfold likeVenue
    rw [if_pos (Or.inr rfl)]
  · unfold incrementInteraction
    rw [if_pos rfl]

/-- C10: for an entity with no existing record, `likeVenue` creates a
record with visit count 0 and `lastInteraction` equal to the empty
string, and afterwards `canInteract` for that entity returns true at any
instant — the empty `lastInteraction` is treated as absent, so a first
visit is never blocked by a like. -/
theorem likeVenue_does_not_start_cooldown (now now2 : Int) (v ts : String) (s : State)
    (hv : v ≠ "") (hts : ts ≠ "") (h : findVenue s v = none) :
    Option.map (fun i => (i.count, i.lastInteraction))
      (findVenue (likeVenue now v ts s) v) = some (0, TS.empty) ∧
    (canInteract now2 v (likeVenue now v ts s)).1 = true := by
  rw [likeVenue_fresh now hv hts h]
  have hfr : findVenue (resetInteractionsIfNeeded now s) v = none :=
    findVenue_reset_none now h
  set newRec : VenueInteraction :=
    { venueId := v, count := 0, likes := 1, lastReset := TS.valid now,
      lastInteraction := TS.empty, arrivalTime := none, timestamp := TS.valid now,
      lastLikeReset := TS.valid now, dailyLikesUsed := 1,
      likeTimeSlot := some ts } with hnewRec
  have happ : findVenue (resetInteractionsIfNeeded now s ++ [newRec]) v = some newRec := by
    rw [findVenue_append_of_none [newRec] v _ hfr]
    exact findVenue_singleton rfl
  constructor
  · rw [happ]
    rfl
  · unfold canInteract
    rw [if_neg hv]
    show canInteractWithVenue (Option.map (fun i => i.lastInteraction)
      (findVenue (resetInteractionsIfNeeded now2
        (resetInteractionsIfNeeded now s ++ [newRec])) v)) now2 = true
    rw [findVenue_reset_lastInteraction, happ]
    rfl

/-- C10 witness: a like of `bar1` at 600 on the empty ledger, then a
visit-eligibility check one minute later. -/
theorem likeVenue_does_not_start_cooldown_witness :
    Option.map (fun i => (i.count, i.lastInteraction))
      (findVenue (likeVenue 600 "bar1" "21:00" []) "bar1") = some (0, TS.empty) ∧
    (canInteract 601 "bar1" (likeVenue 600 "bar1" "21:00" [])).1 = true :=
  likeVenue_does_not_start_cooldown 600 601 "bar1" "21:00" [] (by decide) (by decide) rfl

/-- C2 witness: instantiating the amended cooldown theorem at `T = 600`
(10:00 local, no boundary between 10:00 and 12:00). -/
theorem visit_cooldown_amended_witness :
    incrementInteraction (600 + 60) "bar1" none [exampleVisitRecord] =
      [exampleVisitRecord] ∧
    incrementInteraction (600 + 120) "bar1" none [exampleVisitRecord] =
      [{ exampleVisitRecord with
          count := exampleVisitRecord.count + 1,
          lastInteraction := TS.valid (600 + 120),
          arrivalTime := strOr none exampleVisitRecord.arrivalTime,
          timestamp := TS.valid (600 + 120) }] :=
  visit_cooldown_amended 600 "bar1" none exampleVisitRecord (by decide) (by decide)
    (by decide) (by decide) (by decide) (by decide) (by decide)

end VenueStore
